import Mathlib

/-!
Verification development for the UR tuft engine's core generator
(`src/backend/app/ur_generator.py`, function `generate_ur_program`).

The Python source is shallowly embedded below.  Numeric values (Python
floats) are modelled as rationals `ℚ`; `math.hypot` (the only irrational
operation) is abstracted as an explicit function parameter `hypot`, so every
statement below is proved for an arbitrary distance function.  The pixel
grid is the decoded greyscale image (`image.convert("L"); image.tobytes()`):
width, height and a row-major byte store.  The generated program is modelled
one appended line at a time: the inductive type `Line` has one constructor
per `program_lines.append` site, carrying the values interpolated into the
corresponding f-string.  The `uuid4()` job identifier is the single
non-deterministic input of the source function and is passed in explicitly
as `job_id`.
-/

namespace URTuft

/-- Decoded greyscale image: `width, height = image.size`, `data = image.tobytes()`
(row-major, one byte per pixel, accessed as `data[row * width + column]`). -/
structure PixelGrid where
  width : Nat
  height : Nat
  data : Nat → Nat

/-- Pixel access `data[row * width + column]` from the column scan loop. -/
def pixel (g : PixelGrid) (row col : Nat) : Nat := g.data (row * g.width + col)

/-- Inner `while row < height and data[row * width + column] <= threshold: row += 1`
loop of `generate_ur_program`: starting at `row`, returns the first row index that
is out of range or holds a pixel value above the threshold. -/
def advanceDark (g : PixelGrid) (t c row : Nat) : Nat :=
  if h : row < g.height ∧ pixel g row c ≤ t then advanceDark g t c (row + 1) else row
termination_by g.height - row
decreasing_by omega

theorem le_advanceDark (g : PixelGrid) (t col : Nat) : ∀ row, row ≤ advanceDark g t col row := by
  intro row
  induction row using advanceDark.induct (g := g) (t := t) (c := col) with
  | case1 row h ih =>
      rw [advanceDark, dif_pos h]
      omega
  | case2 row h =>
      rw [advanceDark, dif_neg h]

theorem advanceDark_gt (g : PixelGrid) (t col row : Nat)
    (h : row < g.height ∧ pixel g row col ≤ t) : row < advanceDark g t col row := by
  rw [advanceDark, dif_pos h]
  have := le_advanceDark g t col (row + 1)
  omega

theorem advanceDark_le_height (g : PixelGrid) (t col : Nat) :
    ∀ row, row ≤ g.height → advanceDark g t col row ≤ g.height := by
  intro row
  induction row using advanceDark.induct (g := g) (t := t) (c := col) with
  | case1 row h ih =>
      intro _
      rw [advanceDark, dif_pos h]
      exact ih (by omega)
  | case2 row h =>
      rw [advanceDark, dif_neg h]
      intro hr
      exact hr

theorem advanceDark_dark (g : PixelGrid) (t col : Nat) :
    ∀ row r, row ≤ r → r < advanceDark g t col row → pixel g r col ≤ t := by
  intro row
  induction row using advanceDark.induct (g := g) (t := t) (c := col) with
  | case1 row h ih =>
      intro r hr hlt
      rw [advanceDark, dif_pos h] at hlt
      rcases Nat.eq_or_lt_of_le hr with heq | h2
      · exact heq ▸ h.2
      · exact ih r h2 hlt
  | case2 row h =>
      intro r hr hlt
      rw [advanceDark, dif_neg h] at hlt
      omega

theorem advanceDark_not_dark (g : PixelGrid) (t col : Nat) :
    ∀ row, ¬ (advanceDark g t col row < g.height ∧ pixel g (advanceDark g t col row) col ≤ t) := by
  intro row
  induction row using advanceDark.induct (g := g) (t := t) (c := col) with
  | case1 row h ih =>
      rw [advanceDark, dif_pos h]
      exact ih
  | case2 row h =>
      rw [advanceDark, dif_neg h]
      exact h

/-- Outer `while row < height` column-scan loop of `generate_ur_program`
(source lines 113-128): returns the segment list of one column together with
the number of dark pixels counted into `active_pixels` while scanning it
(`active_pixels += end - start + 1` at each segment append). -/
def scanColumn (g : PixelGrid) (t c row : Nat) : List (Nat × Nat) × Nat :=
  if h1 : row < g.height then
    if h2 : pixel g row c ≤ t then
      ((row, advanceDark g t c row - 1) :: (scanColumn g t c (advanceDark g t c row)).1,
        (advanceDark g t c row - 1 - row + 1) + (scanColumn g t c (advanceDark g t c row)).2)
    else
      scanColumn g t c (row + 1)
  else ([], 0)
termination_by g.height - row
decreasing_by
  all_goals first
    | (have hlt := advanceDark_gt g t c row ⟨h1, h2⟩
       omega)
    | omega

/-- Per-column plans (source lines 110-128): only columns whose scan produced at
least one segment are retained, in ascending column order. -/
def columnPlans (g : PixelGrid) (t : Nat) : List (Nat × List (Nat × Nat)) :=
  (List.range g.width).filterMap (fun col =>
    if (scanColumn g t col 0).1 = [] then none else some (col, (scanColumn g t col 0).1))

/-- Total `active_pixels` accumulator over the whole scan (source line 124). -/
def activePixelCount (g : PixelGrid) (t : Nat) : Nat :=
  ((List.range g.width).map (fun col => (scanColumn g t col 0).2)).sum

/-- The count accumulated by one column's scan equals the sum of
`end - start + 1` over the segments it emitted. -/
theorem scanColumn_count (g : PixelGrid) (t col : Nat) :
    ∀ row, (scanColumn g t col row).2 =
      ((scanColumn g t col row).1.map (fun se => se.2 - se.1 + 1)).sum := by
  intro row
  induction row using scanColumn.induct (g := g) (t := t) (c := col) with
  | case1 row h1 h2 ih =>
      rw [scanColumn, dif_pos h1, dif_pos h2]
      simp only [List.map_cons, List.sum_cons]
      rw [ih]
  | case2 row h1 h2 ih =>
      rw [scanColumn, dif_pos h1, dif_neg h2]
      exact ih
  | case3 row h1 =>
      rw [scanColumn, dif_neg h1]
      rfl

/-- Structural facts about every segment emitted by a column scan started at `row`:
its rows lie in `[row, height)`, all of its pixels are dark, it cannot be extended
downward, and it cannot be extended upward unless it starts at the scan origin. -/
theorem scanColumn_mem (g : PixelGrid) (t col : Nat) :
    ∀ row, ∀ se ∈ (scanColumn g t col row).1,
      row ≤ se.1 ∧ se.1 ≤ se.2 ∧ se.2 < g.height ∧
      (∀ r, se.1 ≤ r → r ≤ se.2 → pixel g r col ≤ t) ∧
      (se.1 = row ∨ ¬ pixel g (se.1 - 1) col ≤ t) ∧
      (se.2 + 1 = g.height ∨ ¬ pixel g (se.2 + 1) col ≤ t) := by
  intro row
  induction row using scanColumn.induct (g := g) (t := t) (c := col) with
  | case1 row h1 h2 ih =>
      intro se hse
      rw [scanColumn, dif_pos h1, dif_pos h2] at hse
      have hgt := advanceDark_gt g t col row ⟨h1, h2⟩
      have hle := advanceDark_le_height g t col row (Nat.le_of_lt h1)
      rcases List.mem_cons.mp hse with heq | hmem
      · subst heq
        refine ⟨Nat.le_refl _, by omega, by omega, ?_, Or.inl rfl, ?_⟩
        · intro r hr1 hr2
          exact advanceDark_dark g t col row r (by omega) (by omega)
        · rcases Nat.eq_or_lt_of_le hle with heq2 | hlt2
          · exact Or.inl (by omega)
          · refine Or.inr ?_
            have hnd := advanceDark_not_dark g t col row
            have : advanceDark g t col row - 1 + 1 = advanceDark g t col row := by omega
            rw [this]
            intro hd
            exact hnd ⟨hlt2, hd⟩
      · obtain ⟨ha, hb, hc, hd, he, hf⟩ := ih se hmem
        refine ⟨by omega, hb, hc, hd, ?_, hf⟩
        refine Or.inr ?_
        rcases he with heq2 | hbright
        · exfalso
          have hdark : pixel g se.1 col ≤ t := hd se.1 (Nat.le_refl _) hb
          rw [heq2] at hdark
          exact advanceDark_not_dark g t col row ⟨by omega, hdark⟩
        · exact hbright
  | case2 row h1 h2 ih =>
      intro se hse
      rw [scanColumn, dif_pos h1, dif_neg h2] at hse
      obtain ⟨ha, hb, hc, hd, he, hf⟩ := ih se hse
      refine ⟨by omega, hb, hc, hd, ?_, hf⟩
      refine Or.inr ?_
      rcases he with heq2 | hbright
      · have : se.1 - 1 = row := by omega
        rw [this]
        exact h2
      · exact hbright
  | case3 row h1 =>
      intro se hse
      rw [scanColumn, dif_neg h1] at hse
      simp at hse

/-- Consecutive segments emitted by a column scan are separated by at least
one row: the earlier one ends strictly before the row preceding the start of
the later one. -/
theorem scanColumn_chain (g : PixelGrid) (t col : Nat) :
    ∀ row, List.Chain' (fun a b => a.2 + 1 < b.1) (scanColumn g t col row).1 := by
  intro row
  induction row using scanColumn.induct (g := g) (t := t) (c := col) with
  | case1 row h1 h2 ih =>
      rw [scanColumn, dif_pos h1, dif_pos h2]
      have hgt := advanceDark_gt g t col row ⟨h1, h2⟩
      refine List.chain'_cons'.mpr ⟨?_, ih⟩
      intro b hb
      have hbmem : b ∈ (scanColumn g t col (advanceDark g t col row)).1 :=
        List.mem_of_mem_head? hb
      obtain ⟨ha, hb2, hc, hd, _, _⟩ := scanColumn_mem g t col _ b hbmem
      have hne : b.1 ≠ advanceDark g t col row := by
        intro heq
        have hdark : pixel g b.1 col ≤ t := hd b.1 (Nat.le_refl _) hb2
        rw [heq] at hdark
        exact advanceDark_not_dark g t col row ⟨by omega, hdark⟩
      omega
  | case2 row h1 h2 ih =>
      rw [scanColumn, dif_pos h1, dif_neg h2]
      exact ih
  | case3 row h1 =>
      rw [scanColumn, dif_neg h1]
      exact List.chain'_nil

/-- Membership in `columnPlans`: exactly the in-range columns whose scan is
non-empty, paired with that scan. -/
theorem columnPlans_mem (g : PixelGrid) (t : Nat) (cp : Nat × List (Nat × Nat))
    (h : cp ∈ columnPlans g t) :
    cp.1 < g.width ∧ cp.2 = (scanColumn g t cp.1 0).1 ∧ cp.2 ≠ [] := by
  obtain ⟨col, hcol, hsome⟩ := List.mem_filterMap.mp h
  by_cases hempty : (scanColumn g t col 0).1 = []
  · rw [if_pos hempty] at hsome
    exact absurd hsome (by simp)
  · rw [if_neg hempty] at hsome
    obtain ⟨rfl⟩ : cp = (col, (scanColumn g t col 0).1) := by
      exact (Option.some_inj.mp hsome).symm
    exact ⟨List.mem_range.mp hcol, rfl, hempty⟩

/-- A column whose scan finds at least one segment appears in the plan. -/
theorem columnPlans_complete (g : PixelGrid) (t col : Nat) (hcol : col < g.width)
    (h : (scanColumn g t col 0).1 ≠ []) :
    (col, (scanColumn g t col 0).1) ∈ columnPlans g t := by
  refine List.mem_filterMap.mpr ⟨col, List.mem_range.mpr hcol, ?_⟩
  rw [if_neg h]

/-- The running `active_pixels` counter equals the sum of `end - start + 1`
over all segments retained in the column plans. -/
theorem activePixelCount_eq_planSum (g : PixelGrid) (t : Nat) :
    activePixelCount g t =
      ((columnPlans g t).map (fun cp => (cp.2.map (fun se => se.2 - se.1 + 1)).sum)).sum := by
  unfold activePixelCount columnPlans
  induction List.range g.width with
  | nil => rfl
  | cons c l ih =>
      by_cases hempty : (scanColumn g t c 0).1 = []
      · have hcount : (scanColumn g t c 0).2 = 0 := by
          rw [scanColumn_count, hempty]
          rfl
        simp only [List.map_cons, List.sum_cons, List.filterMap_cons, if_pos hempty, hcount, ih]
        omega
      · simp only [List.map_cons, List.sum_cons, List.filterMap_cons, if_neg hempty]
        rw [scanColumn_count, ih]

/-- Configurable parameters (`URGenerationOptions` dataclass), with its defaults. -/
structure URGenerationOptions where
  workpiece_width_mm : ℚ := 500
  workpiece_height_mm : ℚ := 500
  safe_height_mm : ℚ := 150
  tuft_height_mm : ℚ := 5
  tool_output : ℤ := 0
  travel_speed_mm_per_sec : ℚ := 200
  tuft_speed_mm_per_sec : ℚ := 60
  black_pixel_threshold : ℤ := 64
  contact_force_threshold_n : ℚ := 15
deriving DecidableEq

def DEFAULT_OPTIONS : URGenerationOptions := {}

/-- Source `_merge_options`: `None` falls back to the defaults; an explicit
options value replaces every field of the defaults (`replace(DEFAULT_OPTIONS,
**overrides.__dict__)` substitutes all nine fields). -/
def merge_options : Option URGenerationOptions → URGenerationOptions
  | none => DEFAULT_OPTIONS
  | some overrides => overrides

def MOVE_ACCELERATION : ℚ := 6/5

def APPROACH_ACCELERATION : ℚ := 4/5

def CONTACT_STEP_METERS : ℚ := 1/1000

/-- One line of the generated URScript program.  Each constructor mirrors one
`program_lines.append` site of `generate_ur_program`, carrying the values
interpolated into the corresponding f-string (coordinates in millimetres and
heights in metres, exactly as passed to `_format_pose`; accelerations and
velocities as rendered into `a=` and `v=`). -/
inductive Line where
  | progDef : Line
  | textmsgStart (original_name : String) : Line
  | setDigitalOut (channel : ℤ) (value : Bool) : Line
  | globalTravelSpeed (v : ℚ) : Line
  | globalTuftSpeed (v : ℚ) : Line
  | globalContactForceThreshold (v : ℚ) : Line
  | globalContactProbeStep (v : ℚ) : Line
  | textmsgNoop : Line
  | movel (x_mm y_mm z_m a v : ℚ) : Line
  | contactPoseInit : Line
  | probeWhile (surface_z : ℚ) : Line
  | probeStep : Line
  | probeMove (a v : ℚ) : Line
  | probeIf (surface_z : ℚ) : Line
  | innerEnd : Line
  | textmsgFinished : Line
  | progEnd : Line
deriving DecidableEq

/-- The mutable planner state captured by the nested helper closures of
`generate_ur_program`: the `last_safe_*` / `last_surface_*` positions, the
`tool_active` flag, the three distance accumulators and the program lines
appended so far. -/
structure PlannerState where
  lastSafeX : Option ℚ
  lastSafeY : Option ℚ
  lastSurfaceX : Option ℚ
  lastSurfaceY : Option ℚ
  toolActive : Bool
  travelDist : ℚ
  tuftDist : ℚ
  verticalDist : ℚ
  lines : List Line

/-- Derived constants shared by the planner helpers (source lines 91-96),
plus the abstracted `math.hypot` distance function. -/
structure PlannerCfg where
  hypot : ℚ → ℚ → ℚ → ℚ → ℚ
  safeZ : ℚ
  surfaceZ : ℚ
  travelSpeed : ℚ
  tuftSpeed : ℚ
  tuftHeightMm : ℚ
  toolOutput : ℤ

/-- Source helper `move_safe` (lines 167-175). -/
def move_safe (cfg : PlannerCfg) (st : PlannerState) (x y : ℚ) : PlannerState :=
  { st with
    travelDist :=
      match st.lastSafeX, st.lastSafeY with
      | some lx, some ly => st.travelDist + cfg.hypot lx ly x y
      | _, _ => st.travelDist
    lines := st.lines ++ [Line.movel x y cfg.safeZ MOVE_ACCELERATION cfg.travelSpeed]
    lastSafeX := some x
    lastSafeY := some y }

/-- Source helper `lower_to_surface` (lines 177-195): appends the generated
probe-and-descend block, records a fixed `tuft_height_mm` of vertical travel,
and updates the last surface position. -/
def lower_to_surface (cfg : PlannerCfg) (st : PlannerState) (x y : ℚ) : PlannerState :=
  { st with
    verticalDist := st.verticalDist + cfg.tuftHeightMm
    lines := st.lines ++
      [Line.contactPoseInit, Line.probeWhile cfg.surfaceZ, Line.probeStep,
       Line.probeMove APPROACH_ACCELERATION cfg.travelSpeed, Line.innerEnd,
       Line.probeIf cfg.surfaceZ,
       Line.movel x y cfg.surfaceZ APPROACH_ACCELERATION cfg.travelSpeed, Line.innerEnd]
    lastSurfaceX := some x
    lastSurfaceY := some y }

/-- Source helper `move_at_surface` (lines 197-205). -/
def move_at_surface (cfg : PlannerCfg) (st : PlannerState) (x y : ℚ) : PlannerState :=
  { st with
    tuftDist :=
      match st.lastSurfaceX, st.lastSurfaceY with
      | some lx, some ly => st.tuftDist + cfg.hypot lx ly x y
      | _, _ => st.tuftDist
    lines := st.lines ++ [Line.movel x y cfg.surfaceZ MOVE_ACCELERATION cfg.tuftSpeed]
    lastSurfaceX := some x
    lastSurfaceY := some y }

/-- Source helper `retract_to_safe` (lines 207-216). -/
def retract_to_safe (cfg : PlannerCfg) (st : PlannerState) (x y : ℚ) : PlannerState :=
  { st with
    verticalDist := st.verticalDist + cfg.tuftHeightMm
    lines := st.lines ++ [Line.movel x y cfg.safeZ APPROACH_ACCELERATION cfg.travelSpeed]
    lastSurfaceX := none
    lastSurfaceY := none
    lastSafeX := some x
    lastSafeY := some y }

/-- Source helper `ensure_tool_state` (lines 218-223): debounced
`set_digital_out`. -/
def ensure_tool_state (cfg : PlannerCfg) (st : PlannerState) (desired : Bool) : PlannerState :=
  if st.toolActive = desired then st
  else { st with
         lines := st.lines ++ [Line.setDigitalOut cfg.toolOutput desired]
         toolActive := desired }

/-- The per-segment body of the main planning loop (source lines 233-244). -/
def processSegment (cfg : PlannerCfg) (ph : ℚ) (columnX : ℚ) (st : PlannerState)
    (se : Nat × Nat) : PlannerState :=
  let startY := ((se.1 : ℚ) + 1/2) * ph
  let endY := ((se.2 : ℚ) + 1/2) * ph
  let st1 := if st.lastSafeX ≠ some columnX ∨ st.lastSafeY ≠ some startY then
      move_safe cfg st columnX startY
    else st
  let st2 := lower_to_surface cfg st1 columnX startY
  let st3 := ensure_tool_state cfg st2 true
  let st4 := move_at_surface cfg st3 columnX endY
  let st5 := ensure_tool_state cfg st4 false
  retract_to_safe cfg st5 columnX endY

/-- The per-column body of the main planning loop (source lines 231-232). -/
def processColumn (cfg : PlannerCfg) (pw ph : ℚ) (st : PlannerState)
    (cp : Nat × List (Nat × Nat)) : PlannerState :=
  cp.2.foldl (processSegment cfg ph (((cp.1 : ℚ) + 1/2) * pw)) st

/-- The final homing block (source lines 246-254): guarded on a known last
safe position, accumulates the homing travel distance and moves to the
origin at safe height. -/
def homeMove (cfg : PlannerCfg) (st : PlannerState) : PlannerState :=
  match st.lastSafeX, st.lastSafeY with
  | some lx, some ly =>
      { st with
        travelDist := st.travelDist + cfg.hypot lx ly 0 0
        lines := st.lines ++ [Line.movel 0 0 cfg.safeZ MOVE_ACCELERATION cfg.travelSpeed]
        lastSafeX := some 0
        lastSafeY := some 0 }
  | _, _ => st

/-- Clamped threshold (source line 95): `max(0, min(255, int(threshold)))`. -/
def thresholdOf (settings : URGenerationOptions) : Nat :=
  (max 0 (min 255 settings.black_pixel_threshold)).toNat

/-- Derived planner constants of `generate_ur_program` (source lines 91-94):
`safe_z`, `surface_z = max(0.0, (safe_height_mm - tuft_height_mm) / 1000.0)`,
and the speeds converted from mm/s to m/s. -/
def plannerConfigOf (hypot : ℚ → ℚ → ℚ → ℚ → ℚ) (settings : URGenerationOptions) : PlannerCfg :=
  { hypot := hypot
    safeZ := settings.safe_height_mm / 1000
    surfaceZ := max 0 ((settings.safe_height_mm - settings.tuft_height_mm) / 1000)
    travelSpeed := settings.travel_speed_mm_per_sec / 1000
    tuftSpeed := settings.tuft_speed_mm_per_sec / 1000
    tuftHeightMm := settings.tuft_height_mm
    toolOutput := settings.tool_output }

/-- The fixed program header (source lines 134-142): procedure opening, start
message, tool off, and the four global declarations, including the
contact-force threshold clamped below by 0.5 N (source line 96). -/
def headerLinesOf (settings : URGenerationOptions) (original_name : String) : List Line :=
  [Line.progDef, Line.textmsgStart original_name,
   Line.setDigitalOut settings.tool_output false,
   Line.globalTravelSpeed (settings.travel_speed_mm_per_sec / 1000),
   Line.globalTuftSpeed (settings.tuft_speed_mm_per_sec / 1000),
   Line.globalContactForceThreshold (max (1/2) settings.contact_force_threshold_n),
   Line.globalContactProbeStep CONTACT_STEP_METERS]

/-- Planner state at entry of the main loop (source lines 157-165): header
emitted, no known positions, tool off, zero distances. -/
def initState (settings : URGenerationOptions) (original_name : String) : PlannerState :=
  { lastSafeX := none
    lastSafeY := none
    lastSurfaceX := none
    lastSurfaceY := none
    toolActive := false
    travelDist := 0
    tuftDist := 0
    verticalDist := 0
    lines := headerLinesOf settings original_name }

/-- Planner state after the initial travel move and the whole column loop
(source lines 225-244).  The head defaults are never exercised: this is only
used under the guard `tuft_segments ≠ 0`, which makes the plan list and its
first entry non-empty, exactly as the source's `column_plans[0]` /
`first_segments[0]` indexing assumes. -/
def stateAfterLoop (hypot : ℚ → ℚ → ℚ → ℚ → ℚ) (g : PixelGrid)
    (settings : URGenerationOptions) (original_name : String) : PlannerState :=
  let cfg := plannerConfigOf hypot settings
  let pw := settings.workpiece_width_mm / (g.width : ℚ)
  let ph := settings.workpiece_height_mm / (g.height : ℚ)
  let plans := columnPlans g (thresholdOf settings)
  let first := plans.headD (0, [])
  let initialX := ((first.1 : ℚ) + 1/2) * pw
  let initialY := (((first.2.headD (0, 0)).1 : ℚ) + 1/2) * ph
  plans.foldl (processColumn cfg pw ph) (move_safe cfg (initState settings original_name) initialX initialY)

/-- Planner state after the final homing move (source lines 246-254). -/
def stateAfterHoming (hypot : ℚ → ℚ → ℚ → ℚ → ℚ) (g : PixelGrid)
    (settings : URGenerationOptions) (original_name : String) : PlannerState :=
  homeMove (plannerConfigOf hypot settings) (stateAfterLoop hypot g settings original_name)

/-- Planner state after the trailing `ensure_tool_state(False)` (source line 256). -/
def stateFinal (hypot : ℚ → ℚ → ℚ → ℚ → ℚ) (g : PixelGrid)
    (settings : URGenerationOptions) (original_name : String) : PlannerState :=
  ensure_tool_state (plannerConfigOf hypot settings)
    (stateAfterHoming hypot g settings original_name) false

/-- Python's `round` applied to an exact rational: round to the nearest
integer, ties to the even integer (banker's rounding). -/
def pyRound (q : ℚ) : ℤ :=
  if q - (⌊q⌋ : ℚ) < 1/2 then ⌊q⌋
  else if (1 : ℚ)/2 < q - (⌊q⌋ : ℚ) then ⌊q⌋ + 1
  else if ⌊q⌋ % 2 = 0 then ⌊q⌋ else ⌊q⌋ + 1

/-- Cycle-time estimate (source lines 260-263): each accumulated distance is
divided by its governing speed, a zero speed contributing zero time, and the
sum is rounded to whole seconds. -/
def estimatedSecondsOf (hypot : ℚ → ℚ → ℚ → ℚ → ℚ) (g : PixelGrid)
    (settings : URGenerationOptions) (original_name : String) : ℤ :=
  let st := stateFinal hypot g settings original_name
  let travelTime : ℚ :=
    if settings.travel_speed_mm_per_sec = 0 then 0
    else st.travelDist / settings.travel_speed_mm_per_sec
  let tuftTime : ℚ :=
    if settings.tuft_speed_mm_per_sec = 0 then 0
    else st.tuftDist / settings.tuft_speed_mm_per_sec
  let verticalTime : ℚ :=
    if settings.travel_speed_mm_per_sec = 0 then 0
    else st.verticalDist / settings.travel_speed_mm_per_sec
  pyRound (travelTime + tuftTime + verticalTime)

/-- Summary statistics (`URGenerationMetadata` dataclass). -/
structure URGenerationMetadata where
  estimated_cycle_time_seconds : ℤ
  resolution : String
  image_width : Nat
  image_height : Nat
  tuft_segments : Nat
  active_pixels : Nat
deriving DecidableEq

/-- Output payload (`URGenerationResult` dataclass); the program text is
modelled line by line. -/
structure URGenerationResult where
  program_lines : List Line
  job_id : String
  metadata : URGenerationMetadata
deriving DecidableEq

/-- Shallow embedding of `generate_ur_program` (source lines 79-274).  The
input is the decoded greyscale pixel grid (image decoding is external), the
`job_id` parameter stands for the `uuid4()` call, and `hypot` abstracts
`math.hypot`.  Validation failures raise `ValueError` in the source and are
modelled as `Except.error` with the same message. -/
def generate_ur_program (hypot : ℚ → ℚ → ℚ → ℚ → ℚ) (g : PixelGrid)
    (original_name : String) (options : Option URGenerationOptions)
    (job_id : String) : Except String URGenerationResult :=
  if (merge_options options).tuft_height_mm ≥ (merge_options options).safe_height_mm then
    Except.error "Tuft height must be smaller than the safe height to allow a retract move."
  else if g.width = 0 ∨ g.height = 0 then
    Except.error "Unable to read uploaded image dimensions."
  else if ((columnPlans g (thresholdOf (merge_options options))).map
      (fun cp => cp.2.length)).sum = 0 then
    Except.ok
      { program_lines := headerLinesOf (merge_options options) original_name ++
          [Line.textmsgNoop, Line.progEnd]
        job_id := job_id
        metadata :=
          { estimated_cycle_time_seconds := 0
            resolution := toString g.width ++ "x" ++ toString g.height
            image_width := g.width
            image_height := g.height
            tuft_segments := ((columnPlans g (thresholdOf (merge_options options))).map
              (fun cp => cp.2.length)).sum
            active_pixels := activePixelCount g (thresholdOf (merge_options options)) } }
  else
    Except.ok
      { program_lines := (stateFinal hypot g (merge_options options) original_name).lines ++
          [Line.textmsgFinished, Line.progEnd]
        job_id := job_id
        metadata :=
          { estimated_cycle_time_seconds :=
              estimatedSecondsOf hypot g (merge_options options) original_name
            resolution := toString g.width ++ "x" ++ toString g.height
            image_width := g.width
            image_height := g.height
            tuft_segments := ((columnPlans g (thresholdOf (merge_options options))).map
              (fun cp => cp.2.length)).sum
            active_pixels := activePixelCount g (thresholdOf (merge_options options)) } }



def taxicab (x1 y1 x2 y2 : ℚ) : ℚ := |x2 - x1| + |y2 - y1|

def darkGrid1 : PixelGrid := ⟨1, 1, fun _ => 0⟩

theorem darkGrid1_width : darkGrid1.width = 1 := rfl
theorem darkGrid1_height : darkGrid1.height = 1 := rfl
theorem pixel_dark1 (r c : Nat) : pixel darkGrid1 r c = 0 := rfl
theorem threshold_default : thresholdOf DEFAULT_OPTIONS = 64 := by decide

theorem adv_dark1 : advanceDark darkGrid1 64 0 0 = 1 := by
  rw [advanceDark, dif_pos (by norm_num [darkGrid1_height, pixel_dark1] :
    0 < darkGrid1.height ∧ pixel darkGrid1 0 0 ≤ 64)]
  rw [advanceDark, dif_neg (by norm_num [darkGrid1_height] :
    ¬ (1 < darkGrid1.height ∧ pixel darkGrid1 1 0 ≤ 64))]

theorem scan_dark1_1 : scanColumn darkGrid1 64 0 1 = ([], 0) := by
  rw [scanColumn, dif_neg (by norm_num [darkGrid1_height] : ¬ (1 < darkGrid1.height))]

theorem scan_dark1 : scanColumn darkGrid1 64 0 0 = ([(0, 0)], 1) := by
  rw [scanColumn, dif_pos (by norm_num [darkGrid1_height] : 0 < darkGrid1.height),
    dif_pos (by norm_num [pixel_dark1] : pixel darkGrid1 0 0 ≤ 64)]
  rw [adv_dark1, scan_dark1_1]
  rfl

theorem plans_dark1 : columnPlans darkGrid1 64 = [(0, [(0, 0)])] := by
  rw [columnPlans, darkGrid1_width]
  simp [scan_dark1, List.range_succ]

theorem active_dark1 : activePixelCount darkGrid1 64 = 1 := by
  rw [activePixelCount, darkGrid1_width]
  simp [scan_dark1, List.range_succ]

theorem loop_dark1 :
    stateAfterLoop taxicab darkGrid1 DEFAULT_OPTIONS "img" =
      { lastSafeX := some 250
        lastSafeY := some 250
        lastSurfaceX := none
        lastSurfaceY := none
        toolActive := false
        travelDist := 0
        tuftDist := 0
        verticalDist := 10
        lines := headerLinesOf DEFAULT_OPTIONS "img" ++
          [Line.movel 250 250 (3/20) (6/5) (1/5),
           Line.contactPoseInit, Line.probeWhile (29/200), Line.probeStep,
           Line.probeMove (4/5) (1/5), Line.innerEnd, Line.probeIf (29/200),
           Line.movel 250 250 (29/200) (4/5) (1/5), Line.innerEnd,
           Line.setDigitalOut 0 true,
           Line.movel 250 250 (29/200) (6/5) (3/50),
           Line.setDigitalOut 0 false,
           Line.movel 250 250 (3/20) (4/5) (1/5)] } := by
  rw [stateAfterLoop, threshold_default, plans_dark1, darkGrid1_width, darkGrid1_height]
  norm_num [DEFAULT_OPTIONS, processColumn, processSegment,
    move_safe, lower_to_surface, move_at_surface, retract_to_safe, ensure_tool_state, initState,
    plannerConfigOf, taxicab, CONTACT_STEP_METERS, MOVE_ACCELERATION, APPROACH_ACCELERATION,
    headerLinesOf]


theorem homing_dark1 :
    stateAfterHoming taxicab darkGrid1 DEFAULT_OPTIONS "img" =
      { lastSafeX := some 0
        lastSafeY := some 0
        lastSurfaceX := none
        lastSurfaceY := none
        toolActive := false
        travelDist := 500
        tuftDist := 0
        verticalDist := 10
        lines := headerLinesOf DEFAULT_OPTIONS "img" ++
          [Line.movel 250 250 (3/20) (6/5) (1/5),
           Line.contactPoseInit, Line.probeWhile (29/200), Line.probeStep,
           Line.probeMove (4/5) (1/5), Line.innerEnd, Line.probeIf (29/200),
           Line.movel 250 250 (29/200) (4/5) (1/5), Line.innerEnd,
           Line.setDigitalOut 0 true,
           Line.movel 250 250 (29/200) (6/5) (3/50),
           Line.setDigitalOut 0 false,
           Line.movel 250 250 (3/20) (4/5) (1/5),
           Line.movel 0 0 (3/20) (6/5) (1/5)] } := by
  rw [stateAfterHoming, loop_dark1]
  norm_num [homeMove, plannerConfigOf, DEFAULT_OPTIONS, taxicab, MOVE_ACCELERATION]

theorem final_dark1 :
    stateFinal taxicab darkGrid1 DEFAULT_OPTIONS "img" =
      stateAfterHoming taxicab darkGrid1 DEFAULT_OPTIONS "img" := by
  rw [stateFinal, homing_dark1]
  norm_num [ensure_tool_state]

theorem estimated_dark1 :
    estimatedSecondsOf taxicab darkGrid1 DEFAULT_OPTIONS "img" = 3 := by
  rw [estimatedSecondsOf, final_dark1, homing_dark1]
  norm_num [DEFAULT_OPTIONS, pyRound]

def dark1Result : URGenerationResult :=
  { program_lines :=
      [Line.progDef, Line.textmsgStart "img", Line.setDigitalOut 0 false,
       Line.globalTravelSpeed (1/5), Line.globalTuftSpeed (3/50),
       Line.globalContactForceThreshold 15, Line.globalContactProbeStep (1/1000),
       Line.movel 250 250 (3/20) (6/5) (1/5),
       Line.contactPoseInit, Line.probeWhile (29/200), Line.probeStep,
       Line.probeMove (4/5) (1/5), Line.innerEnd, Line.probeIf (29/200),
       Line.movel 250 250 (29/200) (4/5) (1/5), Line.innerEnd,
       Line.setDigitalOut 0 true,
       Line.movel 250 250 (29/200) (6/5) (3/50),
       Line.setDigitalOut 0 false,
       Line.movel 250 250 (3/20) (4/5) (1/5),
       Line.movel 0 0 (3/20) (6/5) (1/5),
       Line.textmsgFinished, Line.progEnd]
    job_id := "job"
    metadata :=
      { estimated_cycle_time_seconds := 3
        resolution := "1x1"
        image_width := 1
        image_height := 1
        tuft_segments := 1
        active_pixels := 1 } }

theorem default_tuft : DEFAULT_OPTIONS.tuft_height_mm = 5 := rfl
theorem default_safe : DEFAULT_OPTIONS.safe_height_mm = 150 := rfl
theorem default_travel : DEFAULT_OPTIONS.travel_speed_mm_per_sec = 200 := rfl
theorem default_tuftspeed : DEFAULT_OPTIONS.tuft_speed_mm_per_sec = 60 := rfl
theorem default_cft : DEFAULT_OPTIONS.contact_force_threshold_n = 15 := rfl
theorem default_tool : DEFAULT_OPTIONS.tool_output = 0 := rfl
theorem res11 : toString (1:Nat) ++ "x" ++ toString (1:Nat) = "1x1" := rfl

/-- The sequence of booleans carried by the `set_digital_out` lines of a
program, in emission order. -/
def toolVals (ls : List Line) : List Bool :=
  ls.filterMap (fun l =>
    match l with
    | Line.setDigitalOut _ b => some b
    | _ => none)

theorem toolVals_append (a b : List Line) : toolVals (a ++ b) = toolVals a ++ toolVals b := by
  simp [toolVals]

/-- Debounce invariant: the last emitted `set_digital_out` value tracks the
`tool_active` flag, and adjacent emitted values always differ. -/
def ToolInv (st : PlannerState) : Prop :=
  (toolVals st.lines).getLast? = some st.toolActive ∧
  List.Chain' (fun a b => a ≠ b) (toolVals st.lines)

theorem toolInv_of_keep {st st' : PlannerState} (h1 : toolVals st'.lines = toolVals st.lines)
    (h2 : st'.toolActive = st.toolActive) (h : ToolInv st) : ToolInv st' := by
  unfold ToolInv
  rw [h1, h2]
  exact h

theorem toolVals_move_safe (cfg : PlannerCfg) (st : PlannerState) (x y : ℚ) :
    toolVals (move_safe cfg st x y).lines = toolVals st.lines := by
  simp [move_safe, toolVals_append, toolVals]

theorem toolVals_lower (cfg : PlannerCfg) (st : PlannerState) (x y : ℚ) :
    toolVals (lower_to_surface cfg st x y).lines = toolVals st.lines := by
  simp [lower_to_surface, toolVals_append, toolVals]

theorem toolVals_move_at (cfg : PlannerCfg) (st : PlannerState) (x y : ℚ) :
    toolVals (move_at_surface cfg st x y).lines = toolVals st.lines := by
  simp [move_at_surface, toolVals_append, toolVals]

theorem toolVals_retract (cfg : PlannerCfg) (st : PlannerState) (x y : ℚ) :
    toolVals (retract_to_safe cfg st x y).lines = toolVals st.lines := by
  simp [retract_to_safe, toolVals_append, toolVals]

theorem toolVals_homeMove (cfg : PlannerCfg) (st : PlannerState) :
    toolVals (homeMove cfg st).lines = toolVals st.lines := by
  cases hx : st.lastSafeX <;> cases hy : st.lastSafeY <;>
    simp [homeMove, hx, hy, toolVals_append, toolVals]

theorem toolInv_move_safe (cfg : PlannerCfg) (st : PlannerState) (x y : ℚ)
    (h : ToolInv st) : ToolInv (move_safe cfg st x y) :=
  toolInv_of_keep (toolVals_move_safe cfg st x y) rfl h

theorem toolInv_lower (cfg : PlannerCfg) (st : PlannerState) (x y : ℚ)
    (h : ToolInv st) : ToolInv (lower_to_surface cfg st x y) :=
  toolInv_of_keep (toolVals_lower cfg st x y) rfl h

theorem toolInv_move_at (cfg : PlannerCfg) (st : PlannerState) (x y : ℚ)
    (h : ToolInv st) : ToolInv (move_at_surface cfg st x y) :=
  toolInv_of_keep (toolVals_move_at cfg st x y) rfl h

theorem toolInv_retract (cfg : PlannerCfg) (st : PlannerState) (x y : ℚ)
    (h : ToolInv st) : ToolInv (retract_to_safe cfg st x y) :=
  toolInv_of_keep (toolVals_retract cfg st x y) rfl h

theorem toolInv_homeMove (cfg : PlannerCfg) (st : PlannerState)
    (h : ToolInv st) : ToolInv (homeMove cfg st) := by
  refine toolInv_of_keep (toolVals_homeMove cfg st) ?_ h
  cases hx : st.lastSafeX <;> cases hy : st.lastSafeY <;> simp [homeMove, hx, hy]

theorem toolInv_ensure (cfg : PlannerCfg) (st : PlannerState) (d : Bool)
    (h : ToolInv st) : ToolInv (ensure_tool_state cfg st d) := by
  unfold ensure_tool_state
  split
  · exact h
  · next hne =>
      obtain ⟨hlast, hchain⟩ := h
      constructor
      · show (toolVals (st.lines ++ [Line.setDigitalOut cfg.toolOutput d])).getLast? = some d
        rw [toolVals_append]
        have : toolVals [Line.setDigitalOut cfg.toolOutput d] = [d] := by simp [toolVals]
        rw [this, List.getLast?_concat]
      · show List.Chain' (fun a b => a ≠ b)
          (toolVals (st.lines ++ [Line.setDigitalOut cfg.toolOutput d]))
        rw [toolVals_append]
        have hv : toolVals [Line.setDigitalOut cfg.toolOutput d] = [d] := by simp [toolVals]
        rw [hv]
        refine List.chain'_append.mpr ⟨hchain, List.chain'_singleton d, ?_⟩
        intro x hx y hy
        rw [hlast] at hx
        simp only [Option.mem_def, Option.some.injEq] at hx
        simp only [List.head?_cons, Option.mem_def, Option.some.injEq] at hy
        subst hx
        subst hy
        exact hne

theorem toolInv_processSegment (cfg : PlannerCfg) (ph cx : ℚ) (st : PlannerState)
    (se : Nat × Nat) (h : ToolInv st) : ToolInv (processSegment cfg ph cx st se) := by
  simp only [processSegment]
  refine toolInv_retract _ _ _ _ (toolInv_ensure _ _ _ (toolInv_move_at _ _ _ _
    (toolInv_ensure _ _ _ (toolInv_lower _ _ _ _ ?_))))
  split
  · exact toolInv_move_safe _ _ _ _ h
  · exact h

theorem toolInv_foldl_segments (cfg : PlannerCfg) (ph cx : ℚ) (l : List (Nat × Nat)) :
    ∀ st, ToolInv st → ToolInv (l.foldl (processSegment cfg ph cx) st) := by
  induction l with
  | nil => exact fun st h => h
  | cons a l ih =>
      intro st h
      exact ih _ (toolInv_processSegment cfg ph cx st a h)

theorem toolInv_processColumn (cfg : PlannerCfg) (pw ph : ℚ) (st : PlannerState)
    (cp : Nat × List (Nat × Nat)) (h : ToolInv st) : ToolInv (processColumn cfg pw ph st cp) :=
  toolInv_foldl_segments cfg ph _ cp.2 st h

theorem toolInv_foldl_columns (cfg : PlannerCfg) (pw ph : ℚ)
    (l : List (Nat × List (Nat × Nat))) :
    ∀ st, ToolInv st → ToolInv (l.foldl (processColumn cfg pw ph) st) := by
  induction l with
  | nil => exact fun st h => h
  | cons a l ih =>
      intro st h
      exact ih _ (toolInv_processColumn cfg pw ph st a h)

theorem toolInv_initState (settings : URGenerationOptions) (name : String) :
    ToolInv (initState settings name) := by
  constructor <;> simp [initState, headerLinesOf, toolVals]

theorem toolInv_stateAfterLoop (hypot : ℚ → ℚ → ℚ → ℚ → ℚ) (g : PixelGrid)
    (settings : URGenerationOptions) (name : String) :
    ToolInv (stateAfterLoop hypot g settings name) := by
  simp only [stateAfterLoop]
  exact toolInv_foldl_columns _ _ _ _ _
    (toolInv_move_safe _ _ _ _ (toolInv_initState settings name))

theorem toolInv_stateFinal (hypot : ℚ → ℚ → ℚ → ℚ → ℚ) (g : PixelGrid)
    (settings : URGenerationOptions) (name : String) :
    ToolInv (stateFinal hypot g settings name) :=
  toolInv_ensure _ _ _ (toolInv_homeMove _ _ (toolInv_stateAfterLoop hypot g settings name))

theorem verticalDist_ensure (cfg : PlannerCfg) (st : PlannerState) (d : Bool) :
    (ensure_tool_state cfg st d).verticalDist = st.verticalDist := by
  unfold ensure_tool_state
  split <;> rfl

theorem verticalDist_homeMove (cfg : PlannerCfg) (st : PlannerState) :
    (homeMove cfg st).verticalDist = st.verticalDist := by
  cases hx : st.lastSafeX <;> cases hy : st.lastSafeY <;> simp [homeMove, hx, hy]

theorem tuftDist_ensure (cfg : PlannerCfg) (st : PlannerState) (d : Bool) :
    (ensure_tool_state cfg st d).tuftDist = st.tuftDist := by
  unfold ensure_tool_state
  split <;> rfl

theorem tuftDist_homeMove (cfg : PlannerCfg) (st : PlannerState) :
    (homeMove cfg st).tuftDist = st.tuftDist := by
  cases hx : st.lastSafeX <;> cases hy : st.lastSafeY <;> simp [homeMove, hx, hy]

theorem travelDist_ensure (cfg : PlannerCfg) (st : PlannerState) (d : Bool) :
    (ensure_tool_state cfg st d).travelDist = st.travelDist := by
  unfold ensure_tool_state
  split <;> rfl

theorem toolActive_ensure_false (cfg : PlannerCfg) (st : PlannerState) :
    (ensure_tool_state cfg st false).toolActive = false := by
  unfold ensure_tool_state
  split
  · assumption
  · rfl

theorem toolActive_homeMove (cfg : PlannerCfg) (st : PlannerState) :
    (homeMove cfg st).toolActive = st.toolActive := by
  cases hx : st.lastSafeX <;> cases hy : st.lastSafeY <;> simp [homeMove, hx, hy]

theorem processSegment_verticalDist (cfg : PlannerCfg) (ph cx : ℚ) (st : PlannerState)
    (se : Nat × Nat) :
    (processSegment cfg ph cx st se).verticalDist = st.verticalDist + 2 * cfg.tuftHeightMm := by
  simp only [processSegment, retract_to_safe, verticalDist_ensure, move_at_surface,
    lower_to_surface]
  split <;> (try simp only [move_safe]) <;> ring

theorem processSegment_toolActive (cfg : PlannerCfg) (ph cx : ℚ) (st : PlannerState)
    (se : Nat × Nat) : (processSegment cfg ph cx st se).toolActive = false := by
  simp only [processSegment, retract_to_safe, move_at_surface]
  exact toolActive_ensure_false _ _

theorem processSegment_lastSafe (cfg : PlannerCfg) (ph cx : ℚ) (st : PlannerState)
    (se : Nat × Nat) :
    (processSegment cfg ph cx st se).lastSafeX = some cx ∧
    (processSegment cfg ph cx st se).lastSafeY = some (((se.2 : ℚ) + 1/2) * ph) := by
  simp [processSegment, retract_to_safe]

theorem foldl_segments_verticalDist (cfg : PlannerCfg) (ph cx : ℚ) (l : List (Nat × Nat)) :
    ∀ st, (l.foldl (processSegment cfg ph cx) st).verticalDist =
      st.verticalDist + 2 * cfg.tuftHeightMm * l.length := by
  induction l with
  | nil =>
      intro st
      simp
  | cons a l ih =>
      intro st
      rw [List.foldl_cons, ih, processSegment_verticalDist]
      push_cast [List.length_cons]
      ring

theorem processColumn_verticalDist (cfg : PlannerCfg) (pw ph : ℚ) (st : PlannerState)
    (cp : Nat × List (Nat × Nat)) :
    (processColumn cfg pw ph st cp).verticalDist =
      st.verticalDist + 2 * cfg.tuftHeightMm * cp.2.length :=
  foldl_segments_verticalDist cfg ph _ cp.2 st

theorem foldl_columns_verticalDist (cfg : PlannerCfg) (pw ph : ℚ)
    (l : List (Nat × List (Nat × Nat))) :
    ∀ st, (l.foldl (processColumn cfg pw ph) st).verticalDist =
      st.verticalDist + 2 * cfg.tuftHeightMm * ((l.map (fun cp => cp.2.length)).sum : ℚ) := by
  induction l with
  | nil =>
      intro st
      simp
  | cons a l ih =>
      intro st
      rw [List.foldl_cons, ih, processColumn_verticalDist]
      push_cast [List.map_cons, List.sum_cons]
      ring

/-- The planner's vertical-distance accumulator after the main loop equals
twice the tuft height per segment: one descent and one retract each. -/
theorem stateAfterLoop_verticalDist (hypot : ℚ → ℚ → ℚ → ℚ → ℚ) (g : PixelGrid)
    (settings : URGenerationOptions) (name : String) :
    (stateAfterLoop hypot g settings name).verticalDist =
      2 * settings.tuft_height_mm *
        (((columnPlans g (thresholdOf settings)).map (fun cp => cp.2.length)).sum : ℚ) := by
  simp only [stateAfterLoop]
  rw [foldl_columns_verticalDist]
  simp [move_safe, initState, plannerConfigOf]

/-- Both last-safe coordinates are known. -/
def SafeKnown (st : PlannerState) : Prop := st.lastSafeX.isSome ∧ st.lastSafeY.isSome

theorem safeKnown_processSegment (cfg : PlannerCfg) (ph cx : ℚ) (st : PlannerState)
    (se : Nat × Nat) : SafeKnown (processSegment cfg ph cx st se) := by
  obtain ⟨hx, hy⟩ := processSegment_lastSafe cfg ph cx st se
  exact ⟨by rw [hx]; rfl, by rw [hy]; rfl⟩

theorem safeKnown_foldl_segments (cfg : PlannerCfg) (ph cx : ℚ) (l : List (Nat × Nat)) :
    ∀ st, SafeKnown st → SafeKnown (l.foldl (processSegment cfg ph cx) st) := by
  induction l with
  | nil => exact fun st h => h
  | cons a l ih =>
      intro st h
      exact ih _ (safeKnown_processSegment cfg ph cx st a)

theorem safeKnown_foldl_columns (cfg : PlannerCfg) (pw ph : ℚ)
    (l : List (Nat × List (Nat × Nat))) :
    ∀ st, SafeKnown st → SafeKnown (l.foldl (processColumn cfg pw ph) st) := by
  induction l with
  | nil => exact fun st h => h
  | cons a l ih =>
      intro st h
      exact ih _ (safeKnown_foldl_segments cfg ph _ a.2 st h)

theorem safeKnown_stateAfterLoop (hypot : ℚ → ℚ → ℚ → ℚ → ℚ) (g : PixelGrid)
    (settings : URGenerationOptions) (name : String) :
    SafeKnown (stateAfterLoop hypot g settings name) := by
  simp only [stateAfterLoop]
  exact safeKnown_foldl_columns _ _ _ _ _ ⟨rfl, rfl⟩

theorem homeMove_of_safeKnown (cfg : PlannerCfg) (st : PlannerState) (h : SafeKnown st) :
    homeMove cfg st =
      { st with
        travelDist := st.travelDist + cfg.hypot (st.lastSafeX.getD 0) (st.lastSafeY.getD 0) 0 0
        lines := st.lines ++ [Line.movel 0 0 cfg.safeZ MOVE_ACCELERATION cfg.travelSpeed]
        lastSafeX := some 0
        lastSafeY := some 0 } := by
  obtain ⟨hx, hy⟩ := h
  cases hx2 : st.lastSafeX with
  | none => rw [hx2] at hx; simp at hx
  | some lx =>
      cases hy2 : st.lastSafeY with
      | none => rw [hy2] at hy; simp at hy
      | some ly => simp only [homeMove, hx2, hy2, Option.getD_some]

theorem lines_ext_trans (mid : PlannerState) {base : List Line} {st3 : PlannerState}
    (h1 : ∃ e, mid.lines = base ++ e) (h2 : ∃ e, st3.lines = mid.lines ++ e) :
    ∃ e, st3.lines = base ++ e := by
  obtain ⟨a, ha⟩ := h1
  obtain ⟨b, hb⟩ := h2
  exact ⟨a ++ b, by rw [hb, ha, List.append_assoc]⟩

theorem lines_ext_ensure (cfg : PlannerCfg) (st : PlannerState) (d : Bool) :
    ∃ e, (ensure_tool_state cfg st d).lines = st.lines ++ e := by
  unfold ensure_tool_state
  split
  · exact ⟨[], (List.append_nil _).symm⟩
  · exact ⟨_, rfl⟩

theorem lines_ext_homeMove (cfg : PlannerCfg) (st : PlannerState) :
    ∃ e, (homeMove cfg st).lines = st.lines ++ e := by
  unfold homeMove
  cases hx : st.lastSafeX with
  | none => exact ⟨[], (List.append_nil _).symm⟩
  | some lx =>
      cases hy : st.lastSafeY with
      | none => exact ⟨[], (List.append_nil _).symm⟩
      | some ly => exact ⟨_, rfl⟩

theorem lines_ext_processSegment (cfg : PlannerCfg) (ph cx : ℚ) (st : PlannerState)
    (se : Nat × Nat) : ∃ e, (processSegment cfg ph cx st se).lines = st.lines ++ e := by
  simp only [processSegment]
  refine lines_ext_trans (if st.lastSafeX ≠ some cx ∨
      st.lastSafeY ≠ some (((se.1 : ℚ) + 1/2) * ph) then
        move_safe cfg st cx (((se.1 : ℚ) + 1/2) * ph) else st) ?_ ?_
  · split
    · exact ⟨_, rfl⟩
    · exact ⟨[], (List.append_nil _).symm⟩
  · refine lines_ext_trans (lower_to_surface cfg _ cx (((se.1 : ℚ) + 1/2) * ph))
      ⟨_, rfl⟩ ?_
    refine lines_ext_trans (ensure_tool_state cfg _ true) (lines_ext_ensure _ _ _) ?_
    refine lines_ext_trans (move_at_surface cfg _ cx (((se.2 : ℚ) + 1/2) * ph))
      ⟨_, rfl⟩ ?_
    refine lines_ext_trans (ensure_tool_state cfg _ false) (lines_ext_ensure _ _ _) ?_
    exact ⟨_, rfl⟩

theorem lines_ext_foldl_segments (cfg : PlannerCfg) (ph cx : ℚ) (l : List (Nat × Nat)) :
    ∀ st, ∃ e, (l.foldl (processSegment cfg ph cx) st).lines = st.lines ++ e := by
  induction l with
  | nil => exact fun st => ⟨[], (List.append_nil _).symm⟩
  | cons a l ih =>
      intro st
      exact lines_ext_trans (processSegment cfg ph cx st a)
        (lines_ext_processSegment cfg ph cx st a) (ih _)

theorem lines_ext_foldl_columns (cfg : PlannerCfg) (pw ph : ℚ)
    (l : List (Nat × List (Nat × Nat))) :
    ∀ st, ∃ e, (l.foldl (processColumn cfg pw ph) st).lines = st.lines ++ e := by
  induction l with
  | nil => exact fun st => ⟨[], (List.append_nil _).symm⟩
  | cons a l ih =>
      intro st
      exact lines_ext_trans (a.2.foldl (processSegment cfg ph (((a.1 : ℚ) + 1/2) * pw)) st)
        (lines_ext_foldl_segments cfg ph _ a.2 st) (ih _)

theorem stateAfterLoop_lines_header (hypot : ℚ → ℚ → ℚ → ℚ → ℚ) (g : PixelGrid)
    (settings : URGenerationOptions) (name : String) :
    ∃ e, (stateAfterLoop hypot g settings name).lines = headerLinesOf settings name ++ e := by
  simp only [stateAfterLoop]
  refine lines_ext_trans (move_safe (plannerConfigOf hypot settings)
    (initState settings name) _ _) ⟨_, rfl⟩ (lines_ext_foldl_columns _ _ _ _ _)

/-- Every successful generation's line list starts with the fixed header. -/
theorem stateFinal_lines_header (hypot : ℚ → ℚ → ℚ → ℚ → ℚ) (g : PixelGrid)
    (settings : URGenerationOptions) (name : String) :
    ∃ e, (stateFinal hypot g settings name).lines = headerLinesOf settings name ++ e := by
  unfold stateFinal stateAfterHoming
  exact lines_ext_trans (homeMove (plannerConfigOf hypot settings)
      (stateAfterLoop hypot g settings name))
    (lines_ext_trans (stateAfterLoop hypot g settings name)
      (stateAfterLoop_lines_header hypot g settings name)
      (lines_ext_homeMove _ _))
    (lines_ext_ensure _ _ _)

theorem eval_dark1 :
    generate_ur_program taxicab darkGrid1 "img" none "job" = Except.ok dark1Result := by
  rw [generate_ur_program]
  norm_num [merge_options, threshold_default, plans_dark1, active_dark1, estimated_dark1,
    final_dark1, homing_dark1, darkGrid1_width, darkGrid1_height,
    dark1Result, headerLinesOf, CONTACT_STEP_METERS, default_tuft, default_safe,
    default_travel, default_tuftspeed, default_cft, default_tool, res11]


theorem toolActive_foldl_segments (cfg : PlannerCfg) (ph cx : ℚ) (l : List (Nat × Nat)) :
    ∀ st, st.toolActive = false →
      (l.foldl (processSegment cfg ph cx) st).toolActive = false := by
  induction l with
  | nil => exact fun st h => h
  | cons a l ih =>
      intro st h
      exact ih _ (processSegment_toolActive cfg ph cx st a)

theorem toolActive_foldl_columns (cfg : PlannerCfg) (pw ph : ℚ)
    (l : List (Nat × List (Nat × Nat))) :
    ∀ st, st.toolActive = false →
      (l.foldl (processColumn cfg pw ph) st).toolActive = false := by
  induction l with
  | nil => exact fun st h => h
  | cons a l ih =>
      intro st h
      exact ih _ (toolActive_foldl_segments cfg ph _ a.2 st h)

theorem toolActive_stateAfterLoop (hypot : ℚ → ℚ → ℚ → ℚ → ℚ) (g : PixelGrid)
    (settings : URGenerationOptions) (name : String) :
    (stateAfterLoop hypot g settings name).toolActive = false := by
  simp only [stateAfterLoop]
  exact toolActive_foldl_columns _ _ _ _ _ rfl

theorem toolActive_stateFinal (hypot : ℚ → ℚ → ℚ → ℚ → ℚ) (g : PixelGrid)
    (settings : URGenerationOptions) (name : String) :
    (stateFinal hypot g settings name).toolActive = false :=
  toolActive_ensure_false _ _

theorem ensure_lines_of_false (cfg : PlannerCfg) (st : PlannerState)
    (h : st.toolActive = false) : (ensure_tool_state cfg st false).lines = st.lines := by
  unfold ensure_tool_state
  rw [if_pos h]

/-- After at least the debounced tool-off emitted by the last segment, the
trailing `ensure_tool_state(False)` appends nothing, so the final program
state's lines are the loop lines followed only by the homing move. -/
theorem stateFinal_lines_split (hypot : ℚ → ℚ → ℚ → ℚ → ℚ) (g : PixelGrid)
    (settings : URGenerationOptions) (name : String) :
    (stateFinal hypot g settings name).lines =
      (stateAfterLoop hypot g settings name).lines ++
        [Line.movel 0 0 (plannerConfigOf hypot settings).safeZ MOVE_ACCELERATION
          (plannerConfigOf hypot settings).travelSpeed] := by
  unfold stateFinal
  rw [ensure_lines_of_false _ _ (by
    unfold stateAfterHoming
    rw [toolActive_homeMove]
    exact toolActive_stateAfterLoop hypot g settings name)]
  unfold stateAfterHoming
  rw [homeMove_of_safeKnown _ _ (safeKnown_stateAfterLoop hypot g settings name)]

theorem stateFinal_travelDist (hypot : ℚ → ℚ → ℚ → ℚ → ℚ) (g : PixelGrid)
    (settings : URGenerationOptions) (name : String) :
    (stateFinal hypot g settings name).travelDist =
      (stateAfterLoop hypot g settings name).travelDist +
        hypot ((stateAfterLoop hypot g settings name).lastSafeX.getD 0)
          ((stateAfterLoop hypot g settings name).lastSafeY.getD 0) 0 0 := by
  unfold stateFinal stateAfterHoming
  rw [travelDist_ensure, homeMove_of_safeKnown _ _ (safeKnown_stateAfterLoop hypot g settings name)]
  rfl

theorem stateFinal_tuftDist (hypot : ℚ → ℚ → ℚ → ℚ → ℚ) (g : PixelGrid)
    (settings : URGenerationOptions) (name : String) :
    (stateFinal hypot g settings name).tuftDist =
      (stateAfterLoop hypot g settings name).tuftDist := by
  unfold stateFinal stateAfterHoming
  rw [tuftDist_ensure, tuftDist_homeMove]

theorem stateFinal_verticalDist (hypot : ℚ → ℚ → ℚ → ℚ → ℚ) (g : PixelGrid)
    (settings : URGenerationOptions) (name : String) :
    (stateFinal hypot g settings name).verticalDist =
      (stateAfterLoop hypot g settings name).verticalDist := by
  unfold stateFinal stateAfterHoming
  rw [verticalDist_ensure, verticalDist_homeMove]

/-- Case analysis of a successful generation: the outcome's fields in terms of
the scan and the planner, and the branch actually taken. -/
theorem generate_ok_cases (hypot : ℚ → ℚ → ℚ → ℚ → ℚ) (g : PixelGrid) (name : String)
    (opts : Option URGenerationOptions) (jid : String) (r : URGenerationResult)
    (h : generate_ur_program hypot g name opts jid = Except.ok r) :
    r.job_id = jid ∧
    r.metadata.tuft_segments =
      ((columnPlans g (thresholdOf (merge_options opts))).map (fun cp => cp.2.length)).sum ∧
    r.metadata.active_pixels = activePixelCount g (thresholdOf (merge_options opts)) ∧
    r.metadata.image_width = g.width ∧
    r.metadata.image_height = g.height ∧
    ((r.metadata.tuft_segments = 0 ∧
        r.program_lines = headerLinesOf (merge_options opts) name ++
          [Line.textmsgNoop, Line.progEnd] ∧
        r.metadata.estimated_cycle_time_seconds = 0) ∨
      (r.metadata.tuft_segments ≠ 0 ∧
        r.program_lines = (stateFinal hypot g (merge_options opts) name).lines ++
          [Line.textmsgFinished, Line.progEnd] ∧
        r.metadata.estimated_cycle_time_seconds =
          estimatedSecondsOf hypot g (merge_options opts) name)) := by
  rw [generate_ur_program] at h
  split at h
  · exact absurd h (by simp)
  · split at h
    · exact absurd h (by simp)
    · split at h
      · next hzero =>
          rw [Except.ok.injEq] at h
          subst h
          exact ⟨rfl, rfl, rfl, rfl, rfl, Or.inl ⟨hzero, rfl, rfl⟩⟩
      · next hnz =>
          rw [Except.ok.injEq] at h
          subst h
          exact ⟨rfl, rfl, rfl, rfl, rfl, Or.inr ⟨hnz, rfl, rfl⟩⟩

/-- A region scanned entirely above threshold yields no segments and no count. -/
theorem scanColumn_all_bright (g : PixelGrid) (t col : Nat) :
    ∀ row, (∀ r, row ≤ r → r < g.height → ¬ pixel g r col ≤ t) →
      scanColumn g t col row = ([], 0) := by
  intro row
  induction row using scanColumn.induct (g := g) (t := t) (c := col) with
  | case1 row h1 h2 ih =>
      intro hb
      exact absurd h2 (hb row (Nat.le_refl _) h1)
  | case2 row h1 h2 ih =>
      intro hb
      rw [scanColumn, dif_pos h1, dif_neg h2]
      exact ih (fun r hr hlt => hb r (by omega) hlt)
  | case3 row h1 =>
      intro _
      rw [scanColumn, dif_neg h1]

/-- Program lines of a generation outcome (empty on a validation error). -/
def resultLines : Except String URGenerationResult → List Line
  | Except.ok r => r.program_lines
  | Except.error _ => []

def isMovelLine : Line → Bool
  | Line.movel _ _ _ _ _ => true
  | _ => false

def isSetToolOffLine : Line → Bool
  | Line.setDigitalOut _ false => true
  | _ => false

/-- The lines emitted after the program's last linear move instruction. -/
def tailAfterLastMovel (ls : List Line) : List Line :=
  (ls.reverse.takeWhile (fun l => !isMovelLine l)).reverse

theorem tailAfterLastMovel_concat (ls : List Line) (x y z a v : ℚ) :
    tailAfterLastMovel (ls ++ [Line.movel x y z a v, Line.textmsgFinished, Line.progEnd]) =
      [Line.textmsgFinished, Line.progEnd] := by
  simp [tailAfterLastMovel, List.takeWhile, isMovelLine]

theorem chain_strengthen (l : List (Nat × Nat))
    (hc : List.Chain' (fun a b => a.2 + 1 < b.1) l)
    (hm : ∀ se ∈ l, se.1 ≤ se.2) :
    List.Chain' (fun a b => a.1 < b.1 ∧ a.2 + 1 < b.1) l := by
  induction l with
  | nil => exact List.chain'_nil
  | cons a l ih =>
      rcases l with _ | ⟨b, l2⟩
      · exact List.chain'_singleton a
      · rw [List.chain'_cons] at hc ⊢
        have ha := hm a (by simp)
        refine ⟨⟨by omega, hc.1⟩, ih hc.2 ?_⟩
        intro se hse
        exact hm se (by simp [hse])

/-- A well-formed segment of one column: non-empty inclusive in-range row
interval, every pixel dark (value at most the threshold), not extendable
upward (starts at row 0 or is preceded by a bright pixel) and not extendable
downward (ends at the last row or is followed by a bright pixel). -/
def SegWF (g : PixelGrid) (t col : Nat) (se : Nat × Nat) : Prop :=
  se.1 ≤ se.2 ∧ se.2 < g.height ∧
  (∀ r, se.1 ≤ r → r ≤ se.2 → pixel g r col ≤ t) ∧
  (se.1 = 0 ∨ ¬ pixel g (se.1 - 1) col ≤ t) ∧
  (se.2 + 1 = g.height ∨ ¬ pixel g (se.2 + 1) col ≤ t)

/-- Estimator contract following the specification's words: divide each
accumulated distance by its governing speed (zero speed contributing zero
time), sum, and round to the nearest whole second. -/
def specCycleTime (travel tuft vertical travel_speed tuft_speed : ℚ) : ℤ :=
  pyRound ((if travel_speed = 0 then 0 else travel / travel_speed) +
    (if tuft_speed = 0 then 0 else tuft / tuft_speed) +
    (if travel_speed = 0 then 0 else vertical / travel_speed))

/-- The linear-move lines whose rendered velocity equals `v` (used to single
out the tuft-speed `MoveAtSurface` move in a concrete program). -/
def movelsAtSpeed (v : ℚ) (ls : List Line) : List Line :=
  ls.filter (fun l =>
    match l with
    | Line.movel _ _ _ _ v2 => decide (v2 = v)
    | _ => false)

def brightGrid1 : PixelGrid := ⟨1, 1, fun _ => 255⟩

/-- Options equal to the defaults except that the tuft height has been raised
to the safe height. -/
def invalidOpts : URGenerationOptions := { tuft_height_mm := 150 }

/-- C1 (amended): in the rendered program, every segment's `MoveAtSurface`
move and the `LowerToSurface` fallback move are emitted at the planner's
`surface_z`, and `generate_ur_program` computes `surface_z` as
`max 0 ((safe_height_mm - tuft_height_mm) / 1000)` metres — the tool sits
`tuft_height_mm` millimetres *below the safe height*, not at an absolute Z of
`tuft_height_mm` converted to metres as the claim states. -/
theorem surface_moves_rendered_at_surface_z (cfg : PlannerCfg) (st : PlannerState) (x y : ℚ)
    (hypot : ℚ → ℚ → ℚ → ℚ → ℚ) (settings : URGenerationOptions) :
    (move_at_surface cfg st x y).lines =
      st.lines ++ [Line.movel x y cfg.surfaceZ MOVE_ACCELERATION cfg.tuftSpeed] ∧
    (lower_to_surface cfg st x y).lines =
      st.lines ++ [Line.contactPoseInit, Line.probeWhile cfg.surfaceZ, Line.probeStep,
        Line.probeMove APPROACH_ACCELERATION cfg.travelSpeed, Line.innerEnd,
        Line.probeIf cfg.surfaceZ,
        Line.movel x y cfg.surfaceZ APPROACH_ACCELERATION cfg.travelSpeed, Line.innerEnd] ∧
    (plannerConfigOf hypot settings).surfaceZ =
      max 0 ((settings.safe_height_mm - settings.tuft_height_mm) / 1000) :=
  ⟨rfl, rfl, rfl⟩

/-- C1 (counterexample): with default options (safe 150 mm, tuft 5 mm) on a
1-by-1 all-dark image, the `MoveAtSurface` move is rendered at Z = 29/200 m
(= 145 mm), not at `tuft_height_mm` in metres (1/200 m = 5 mm); no surface
move at that claimed height exists in the program. -/
theorem surface_move_not_at_tuft_height :
    generate_ur_program taxicab darkGrid1 "img" none "job" = Except.ok dark1Result ∧
    Line.movel 250 250 (29/200) MOVE_ACCELERATION (3/50) ∈ dark1Result.program_lines ∧
    (29 : ℚ)/200 ≠ (merge_options none).tuft_height_mm / 1000 ∧
    Line.movel 250 250 ((merge_options none).tuft_height_mm / 1000) MOVE_ACCELERATION
      ((merge_options none).tuft_speed_mm_per_sec / 1000) ∉ dark1Result.program_lines := by
  refine ⟨eval_dark1, ?_, ?_, ?_⟩
  · norm_num [dark1Result, MOVE_ACCELERATION]
  · norm_num [merge_options, DEFAULT_OPTIONS]
  · simp only [dark1Result, merge_options, DEFAULT_OPTIONS, MOVE_ACCELERATION]
    norm_num
    simp

/-- C2 (amended): after at least one segment, the trailing
`ensure_tool_state(False)` of `generate_ur_program` is debounced: the tool was
already commanded off by the last segment, so *no* `set_digital_out` is
emitted after the final homing move — the lines after the last move are just
the closing message and `end` — while the last `SetTool` value in the whole
stream is nevertheless `False`, so the program never ends with the tool
commanded on. -/
theorem tool_off_at_program_end (hypot : ℚ → ℚ → ℚ → ℚ → ℚ) (g : PixelGrid) (name : String)
    (opts : Option URGenerationOptions) (jid : String) (r : URGenerationResult)
    (h : generate_ur_program hypot g name opts jid = Except.ok r)
    (hn : r.metadata.tuft_segments ≠ 0) :
    tailAfterLastMovel r.program_lines = [Line.textmsgFinished, Line.progEnd] ∧
    (toolVals r.program_lines).getLast? = some false := by
  obtain ⟨-, -, -, -, -, hcases⟩ := generate_ok_cases hypot g name opts jid r h
  rcases hcases with ⟨h0, -, -⟩ | ⟨-, hlines, -⟩
  · exact absurd h0 hn
  · constructor
    · rw [hlines, stateFinal_lines_split, List.append_assoc]
      exact tailAfterLastMovel_concat _ _ _ _ _ _
    · rw [hlines, toolVals_append]
      have hv : toolVals [Line.textmsgFinished, Line.progEnd] = [] := by simp [toolVals]
      rw [hv, List.append_nil]
      have hinv := (toolInv_stateFinal hypot g (merge_options opts) name).1
      rw [hinv, toolActive_stateFinal]

theorem tool_off_at_program_end_witness :
    (generate_ur_program taxicab darkGrid1 "img" none "job" = Except.ok dark1Result ∧
      dark1Result.metadata.tuft_segments ≠ 0) ∧
    (tailAfterLastMovel dark1Result.program_lines = [Line.textmsgFinished, Line.progEnd] ∧
      (toolVals dark1Result.program_lines).getLast? = some false) :=
  ⟨⟨eval_dark1, by norm_num [dark1Result]⟩,
    tool_off_at_program_end taxicab darkGrid1 "img" none "job" dark1Result eval_dark1
      (by norm_num [dark1Result])⟩

/-- C2 (counterexample): on a 1-by-1 all-dark default run (one segment
processed), no `set_digital_out(..., False)` instruction appears after the
final homing move: the claimed unconditional `SetTool(false)` at program end
is not emitted, because `ensure_tool_state(False)` is debounced and the tool
is already off. -/
theorem no_final_setTool_emitted :
    generate_ur_program taxicab darkGrid1 "img" none "job" = Except.ok dark1Result ∧
    dark1Result.metadata.tuft_segments = 1 ∧
    (tailAfterLastMovel dark1Result.program_lines).any isSetToolOffLine = false :=
  ⟨eval_dark1, rfl, by
    simp [dark1Result, tailAfterLastMovel, isMovelLine, isSetToolOffLine, List.takeWhile]⟩

/-- C3: over the entire emitted instruction stream of any generation — the
header's initial tool-off included — no two consecutive `set_digital_out`
instructions carry the same boolean (debounce invariant). -/
theorem setTool_values_alternate (hypot : ℚ → ℚ → ℚ → ℚ → ℚ) (g : PixelGrid) (name : String)
    (opts : Option URGenerationOptions) (jid : String) :
    List.Chain' (fun a b => a ≠ b)
      (toolVals (resultLines (generate_ur_program hypot g name opts jid))) := by
  rw [generate_ur_program]
  split
  · simp [resultLines, toolVals]
  · split
    · simp [resultLines, toolVals]
    · split
      · simp [resultLines, toolVals_append, toolVals, headerLinesOf]
      · simp only [resultLines]
        rw [toolVals_append]
        have hv : toolVals [Line.textmsgFinished, Line.progEnd] = [] := by simp [toolVals]
        rw [hv, List.append_nil]
        exact (toolInv_stateFinal hypot g (merge_options opts) name).2

/-- C4: for a generation that processed at least one segment, the reported
cycle time is exactly the spec's formula: round((travel distance including the
final homing move) / travel speed + tuft distance / tuft speed +
(2 x tuft_height_mm x segment count) / travel speed), with a zero speed
contributing zero time instead of a division fault. -/
theorem estimated_time_matches_spec_formula (hypot : ℚ → ℚ → ℚ → ℚ → ℚ) (g : PixelGrid)
    (name : String) (opts : Option URGenerationOptions) (jid : String)
    (r : URGenerationResult)
    (h : generate_ur_program hypot g name opts jid = Except.ok r)
    (hn : r.metadata.tuft_segments ≠ 0) :
    r.metadata.estimated_cycle_time_seconds =
      specCycleTime
        ((stateAfterLoop hypot g (merge_options opts) name).travelDist +
          hypot ((stateAfterLoop hypot g (merge_options opts) name).lastSafeX.getD 0)
            ((stateAfterLoop hypot g (merge_options opts) name).lastSafeY.getD 0) 0 0)
        (stateAfterLoop hypot g (merge_options opts) name).tuftDist
        (2 * (merge_options opts).tuft_height_mm * (r.metadata.tuft_segments : ℚ))
        (merge_options opts).travel_speed_mm_per_sec
        (merge_options opts).tuft_speed_mm_per_sec := by
  obtain ⟨-, hseg, -, -, -, hcases⟩ := generate_ok_cases hypot g name opts jid r h
  rcases hcases with ⟨h0, -, -⟩ | ⟨-, -, hest⟩
  · exact absurd h0 hn
  · rw [hest]
    simp only [estimatedSecondsOf, specCycleTime]
    rw [stateFinal_travelDist, stateFinal_tuftDist, stateFinal_verticalDist,
      stateAfterLoop_verticalDist, hseg]
    congr 1
    push_cast [List.map_map]
    rfl

theorem estimated_time_matches_spec_formula_witness :
    (generate_ur_program taxicab darkGrid1 "img" none "job" = Except.ok dark1Result ∧
      dark1Result.metadata.tuft_segments ≠ 0) ∧
    dark1Result.metadata.estimated_cycle_time_seconds =
      specCycleTime
        ((stateAfterLoop taxicab darkGrid1 (merge_options none) "img").travelDist +
          taxicab ((stateAfterLoop taxicab darkGrid1 (merge_options none) "img").lastSafeX.getD 0)
            ((stateAfterLoop taxicab darkGrid1 (merge_options none) "img").lastSafeY.getD 0) 0 0)
        (stateAfterLoop taxicab darkGrid1 (merge_options none) "img").tuftDist
        (2 * (merge_options none).tuft_height_mm * (dark1Result.metadata.tuft_segments : ℚ))
        (merge_options none).travel_speed_mm_per_sec
        (merge_options none).tuft_speed_mm_per_sec :=
  ⟨⟨eval_dark1, by norm_num [dark1Result]⟩,
    estimated_time_matches_spec_formula taxicab darkGrid1 "img" none "job" dark1Result
      eval_dark1 (by norm_num [dark1Result])⟩

/-- C5: for every input grid and options, the reported `active_pixels` equals
the sum of `end - start + 1` over all segments of the emitted column plans. -/
theorem reported_active_pixels_eq_sum (hypot : ℚ → ℚ → ℚ → ℚ → ℚ) (g : PixelGrid)
    (name : String) (opts : Option URGenerationOptions) (jid : String)
    (r : URGenerationResult)
    (h : generate_ur_program hypot g name opts jid = Except.ok r) :
    r.metadata.active_pixels =
      ((columnPlans g (thresholdOf (merge_options opts))).map
        (fun cp => (cp.2.map (fun se => se.2 - se.1 + 1)).sum)).sum := by
  obtain ⟨-, -, hact, -, -, -⟩ := generate_ok_cases hypot g name opts jid r h
  rw [hact, activePixelCount_eq_planSum]

theorem reported_active_pixels_eq_sum_witness :
    (generate_ur_program taxicab darkGrid1 "img" none "job" = Except.ok dark1Result) ∧
    dark1Result.metadata.active_pixels =
      ((columnPlans darkGrid1 (thresholdOf (merge_options none))).map
        (fun cp => (cp.2.map (fun se => se.2 - se.1 + 1)).sum)).sum :=
  ⟨eval_dark1,
    reported_active_pixels_eq_sum taxicab darkGrid1 "img" none "job" dark1Result eval_dark1⟩

/-- C6: every entry of the column plan is a non-empty list of well-formed
segments: maximal contiguous dark runs (dark meaning value at most the
threshold), strictly ordered by ascending start, non-overlapping, and
separated by at least one above-threshold pixel; columns with no dark run do
not appear. -/
theorem plan_segments_maximal_ordered (g : PixelGrid) (t : Nat)
    (cp : Nat × List (Nat × Nat)) (h : cp ∈ columnPlans g t) :
    cp.2 ≠ [] ∧
    (∀ se ∈ cp.2, SegWF g t cp.1 se) ∧
    List.Chain' (fun a b => a.1 < b.1 ∧ a.2 + 1 < b.1) cp.2 := by
  obtain ⟨hcol, heq, hne⟩ := columnPlans_mem g t cp h
  refine ⟨hne, ?_, ?_⟩
  · intro se hse
    rw [heq] at hse
    obtain ⟨ha, hb, hc, hd, he, hf⟩ := scanColumn_mem g t cp.1 0 se hse
    exact ⟨hb, hc, hd, he, hf⟩
  · rw [heq]
    refine chain_strengthen _ (scanColumn_chain g t cp.1 0) ?_
    intro se hse
    exact (scanColumn_mem g t cp.1 0 se hse).2.1

theorem plan_segments_maximal_ordered_witness :
    ((0, [(0, 0)]) ∈ columnPlans darkGrid1 64) ∧
    ((0, [(0, 0)]).2 ≠ [] ∧
      (∀ se ∈ (0, [(0, 0)]).2, SegWF darkGrid1 64 (0, [(0, 0)]).1 se) ∧
      List.Chain' (fun a b => a.1 < b.1 ∧ a.2 + 1 < b.1) (0, [(0, 0)]).2) :=
  ⟨by rw [plans_dark1]; simp,
    plan_segments_maximal_ordered darkGrid1 64 (0, [(0, 0)]) (by rw [plans_dark1]; simp)⟩

/-- C7: whenever the merged options have `tuft_height_mm >= safe_height_mm`,
generation fails with the height-validation error for every pixel grid —
before any scanning or planning — and, the outcome being `Except.error`, no
partial script is produced. -/
theorem heights_validated_before_scan (hypot : ℚ → ℚ → ℚ → ℚ → ℚ) (g : PixelGrid)
    (name : String) (opts : Option URGenerationOptions) (jid : String)
    (h : (merge_options opts).tuft_height_mm ≥ (merge_options opts).safe_height_mm) :
    generate_ur_program hypot g name opts jid =
      Except.error
        "Tuft height must be smaller than the safe height to allow a retract move." := by
  rw [generate_ur_program, if_pos h]

theorem heights_validated_before_scan_witness :
    ((merge_options (some invalidOpts)).tuft_height_mm ≥
      (merge_options (some invalidOpts)).safe_height_mm) ∧
    generate_ur_program taxicab brightGrid1 "img" (some invalidOpts) "job" =
      Except.error
        "Tuft height must be smaller than the safe height to allow a retract move." :=
  ⟨by norm_num [merge_options, invalidOpts],
    heights_validated_before_scan taxicab brightGrid1 "img" (some invalidOpts) "job"
      (by norm_num [merge_options, invalidOpts])⟩

/-- C8: a valid-options, non-degenerate image in which every pixel is above
the threshold generates successfully with zero segments, zero active pixels,
zero estimated time, and a program consisting of the fixed header, the no-op
message and the closing `end` — no travel or tuft moves. -/
theorem no_dark_pixels_noop (hypot : ℚ → ℚ → ℚ → ℚ → ℚ) (g : PixelGrid) (name : String)
    (opts : Option URGenerationOptions) (jid : String)
    (hv : ¬ (merge_options opts).tuft_height_mm ≥ (merge_options opts).safe_height_mm)
    (hw : g.width ≠ 0) (hh : g.height ≠ 0)
    (hb : ∀ r c, r < g.height → c < g.width →
      ¬ pixel g r c ≤ thresholdOf (merge_options opts)) :
    generate_ur_program hypot g name opts jid = Except.ok
      { program_lines := headerLinesOf (merge_options opts) name ++
          [Line.textmsgNoop, Line.progEnd]
        job_id := jid
        metadata :=
          { estimated_cycle_time_seconds := 0
            resolution := toString g.width ++ "x" ++ toString g.height
            image_width := g.width
            image_height := g.height
            tuft_segments := 0
            active_pixels := 0 } } := by
  have hscan : ∀ col, col < g.width →
      scanColumn g (thresholdOf (merge_options opts)) col 0 = ([], 0) := by
    intro col hcol
    exact scanColumn_all_bright g _ col 0 (fun r _ hr => hb r col hr hcol)
  have hplans : columnPlans g (thresholdOf (merge_options opts)) = [] := by
    rw [columnPlans, List.filterMap_eq_nil_iff]
    intro col hcol
    rw [hscan col (List.mem_range.mp hcol)]
    rfl
  have hactive : activePixelCount g (thresholdOf (merge_options opts)) = 0 := by
    rw [activePixelCount]
    apply List.sum_eq_zero
    intro x hx
    obtain ⟨col, hcol, rfl⟩ := List.mem_map.mp hx
    rw [hscan col (List.mem_range.mp hcol)]
  rw [generate_ur_program, if_neg hv, if_neg (by simp [hw, hh])]
  rw [hplans, hactive]
  simp

theorem no_dark_pixels_noop_witness :
    (¬ (merge_options none).tuft_height_mm ≥ (merge_options none).safe_height_mm ∧
      brightGrid1.width ≠ 0 ∧ brightGrid1.height ≠ 0 ∧
      (∀ r c, r < brightGrid1.height → c < brightGrid1.width →
        ¬ pixel brightGrid1 r c ≤ thresholdOf (merge_options none))) ∧
    generate_ur_program taxicab brightGrid1 "img" none "job" = Except.ok
      { program_lines := headerLinesOf (merge_options none) "img" ++
          [Line.textmsgNoop, Line.progEnd]
        job_id := "job"
        metadata :=
          { estimated_cycle_time_seconds := 0
            resolution := toString brightGrid1.width ++ "x" ++ toString brightGrid1.height
            image_width := brightGrid1.width
            image_height := brightGrid1.height
            tuft_segments := 0
            active_pixels := 0 } } :=
  ⟨⟨by norm_num [merge_options, DEFAULT_OPTIONS], by norm_num [brightGrid1],
      by norm_num [brightGrid1],
      fun r c _ _ => by norm_num [pixel, brightGrid1, merge_options, threshold_default]⟩,
    no_dark_pixels_noop taxicab brightGrid1 "img" none "job"
      (by norm_num [merge_options, DEFAULT_OPTIONS]) (by norm_num [brightGrid1])
      (by norm_num [brightGrid1])
      (fun r c _ _ => by norm_num [pixel, brightGrid1, merge_options, threshold_default])⟩

/-- C9: generation is deterministic — for a fixed pixel grid, filename and
options, the program lines and the metadata do not depend on anything that
varies between invocations; in the embedding the freshly drawn `uuid4()` job
identifier is the only per-invocation input, and two runs with different
identifiers produce identical program text and metadata. -/
theorem generation_deterministic (hypot : ℚ → ℚ → ℚ → ℚ → ℚ) (g : PixelGrid) (name : String)
    (opts : Option URGenerationOptions) (jid1 jid2 : String) :
    (generate_ur_program hypot g name opts jid1).map (fun r => (r.program_lines, r.metadata)) =
    (generate_ur_program hypot g name opts jid2).map
      (fun r => (r.program_lines, r.metadata)) := by
  by_cases h1 : (merge_options opts).tuft_height_mm ≥ (merge_options opts).safe_height_mm
  · rw [generate_ur_program, generate_ur_program, if_pos h1, if_pos h1]
  · by_cases h2 : g.width = 0 ∨ g.height = 0
    · rw [generate_ur_program, generate_ur_program, if_neg h1, if_neg h1, if_pos h2, if_pos h2]
    · by_cases h3 : ((columnPlans g (thresholdOf (merge_options opts))).map
          (fun cp => cp.2.length)).sum = 0
      · rw [generate_ur_program, generate_ur_program, if_neg h1, if_neg h1, if_neg h2,
          if_neg h2, if_pos h3, if_pos h3]
        rfl
      · rw [generate_ur_program, generate_ur_program, if_neg h1, if_neg h1, if_neg h2,
          if_neg h2, if_neg h3, if_neg h3]
        rfl

/-- C10: every successful generation's sixth program line is the global
contact-force-threshold declaration carrying `max(0.5, contact_force_threshold_n)`
newtons: a configured threshold below 0.5 N is silently raised, never used
as-is and never rejected. -/
theorem contact_force_clamped (hypot : ℚ → ℚ → ℚ → ℚ → ℚ) (g : PixelGrid) (name : String)
    (opts : Option URGenerationOptions) (jid : String) (r : URGenerationResult)
    (h : generate_ur_program hypot g name opts jid = Except.ok r) :
    r.program_lines[5]? =
      some (Line.globalContactForceThreshold
        (max (1/2) (merge_options opts).contact_force_threshold_n)) := by
  obtain ⟨-, -, -, -, -, hcases⟩ := generate_ok_cases hypot g name opts jid r h
  rcases hcases with ⟨-, hlines, -⟩ | ⟨-, hlines, -⟩
  · rw [hlines]
    simp [headerLinesOf]
  · obtain ⟨e, he⟩ := stateFinal_lines_header hypot g (merge_options opts) name
    rw [hlines, he, List.append_assoc]
    simp [headerLinesOf]

theorem contact_force_clamped_witness :
    (generate_ur_program taxicab darkGrid1 "img" none "job" = Except.ok dark1Result) ∧
    dark1Result.program_lines[5]? =
      some (Line.globalContactForceThreshold
        (max (1/2) (merge_options none).contact_force_threshold_n)) :=
  ⟨eval_dark1,
    contact_force_clamped taxicab darkGrid1 "img" none "job" dark1Result eval_dark1⟩

end URTuft
